import Mathlib

/-!
Shallow embedding of the checklist submission service (`main.go`).

The program is a single HTTP handler (`checklistHandler`) that decodes a
JSON payload into a `Checklist` struct with unknown fields disallowed,
validates it (at least one answer, date format), normalizes the date and
creation timestamp, and then writes one parent row plus one answer row per
submitted answer inside a single database transaction, returning the
generated parent identifier.

The embedding models the JSON decoding step over a `JVal` JSON tree, Go's
`time.Parse` for the two layouts the program uses (`2006-01-02` and
RFC3339), the database as an explicit state of committed rows, and the
transactional write as a function that either appends the whole row set or
leaves the state unchanged (rollback). Database faults (failed begin,
failed insert at a given loop position, failed commit) are injected through
a `Fault` record.
-/

/-- Calendar time with a timezone offset: the fields of Go's `time.Time`
that this program observes (date, clock time, nanoseconds, offset). -/
structure Tm where
  year : Nat
  month : Nat
  day : Nat
  hour : Nat
  minute : Nat
  second : Nat
  nsec : Nat
  offsetMin : Int
deriving DecidableEq

/-- JSON values, as seen by Go's `encoding/json` decoder. -/
inductive JVal where
  | jnull : JVal
  | jbool : Bool → JVal
  | jnum : Int → JVal
  | jstr : String → JVal
  | jarr : List JVal → JVal
  | jobj : List (String × JVal) → JVal

/-- The `Answer` struct of `main.go`: `Key` and `Label` are plain Go strings
(zero value `""`), `Value` and `Comment` are string pointers (may be nil). -/
structure Answer where
  key : String
  label : String
  value : Option String
  comment : Option String
deriving DecidableEq

/-- The `Checklist` struct of `main.go`: all scalar fields are string
pointers, `Answers` is a slice. -/
structure Checklist where
  childName : Option String
  date : Option String
  specialist : Option String
  createdAt : Option String
  answers : List Answer
deriving DecidableEq

/-- Zero value of the `Answer` struct. -/
def Answer.zero : Answer := { key := "", label := "", value := none, comment := none }

/-- Zero value of the `Checklist` struct. -/
def Checklist.zero : Checklist :=
  { childName := none, date := none, specialist := none, createdAt := none, answers := [] }

/-- Whitespace in the sense of Go's `unicode.IsSpace` (ASCII range). -/
def isSpaceChar (c : Char) : Bool :=
  c = ' ' || c = '\t' || c = '\n' || c = '\r' || c = '\x0b' || c = '\x0c'

/-- Go's `strings.TrimSpace`: drop leading and trailing whitespace. -/
def trimSpace (s : String) : String :=
  String.mk (((s.toList.dropWhile isSpaceChar).reverse.dropWhile isSpaceChar).reverse)

/-- ASCII lower-casing of one character. -/
def lowerChar (c : Char) : Char :=
  if 'A' ≤ c ∧ c ≤ 'Z' then Char.ofNat (c.toNat + 32) else c

/-- Go's `strings.EqualFold` as the json package uses it for field names. -/
def foldEq (a b : String) : Bool :=
  a.toList.map lowerChar == b.toList.map lowerChar

/-- Go's struct-field lookup for JSON keys: an exact match on the json tag is
preferred, otherwise a case-insensitive match; `none` means unknown field. -/
def matchField (names : List String) (k : String) : Option String :=
  if names.contains k then some k
  else names.find? (fun f => foldEq f k)

/-- Decoding a JSON value into a Go `*string` field: null sets the pointer to
nil, a string allocates it, anything else is a type error. -/
def decodeOptString (v : JVal) : Except String (Option String) :=
  match v with
  | JVal.jnull => Except.ok none
  | JVal.jstr s => Except.ok (some s)
  | _ => Except.error "cannot unmarshal value into field of type string pointer"

/-- Decoding a JSON value into a Go `string` field: null leaves the current
value, a string replaces it, anything else is a type error. -/
def decodeStringField (cur : String) (v : JVal) : Except String String :=
  match v with
  | JVal.jnull => Except.ok cur
  | JVal.jstr s => Except.ok s
  | _ => Except.error "cannot unmarshal value into field of type string"

/-- JSON tags of the `Answer` struct fields. -/
def answerFieldNames : List String := ["key", "label", "value", "comment"]

/-- Store a decoded JSON value into the matched `Answer` field. -/
def setAnswerField (a : Answer) (f : String) (v : JVal) : Except String Answer :=
  if f = "key" then Except.map (fun s => { a with key := s }) (decodeStringField a.key v)
  else if f = "label" then Except.map (fun s => { a with label := s }) (decodeStringField a.label v)
  else if f = "value" then Except.map (fun s => { a with value := s }) (decodeOptString v)
  else Except.map (fun s => { a with comment := s }) (decodeOptString v)

/-- Fold the key/value pairs of a JSON object into an `Answer`, rejecting
unknown fields (`DisallowUnknownFields` applies to nested objects too). -/
def decodeAnswerFields : Answer → List (String × JVal) → Except String Answer
  | a, [] => Except.ok a
  | a, (k, v) :: rest =>
    match matchField answerFieldNames k with
    | none => Except.error ("unknown field " ++ k)
    | some f =>
      match setAnswerField a f v with
      | Except.error e => Except.error e
      | Except.ok a2 => decodeAnswerFields a2 rest

/-- Decode one element of the `answers` array: null leaves the zero struct,
an object is decoded field by field, anything else is a type error. -/
def decodeAnswerVal (v : JVal) : Except String Answer :=
  match v with
  | JVal.jnull => Except.ok Answer.zero
  | JVal.jobj fs => decodeAnswerFields Answer.zero fs
  | _ => Except.error "cannot unmarshal value into answer struct"

/-- Decode the elements of the `answers` array in order, stopping at the
first failing element. -/
def decodeAnswerList : List JVal → Except String (List Answer)
  | [] => Except.ok []
  | v :: rest =>
    match decodeAnswerVal v with
    | Except.error e => Except.error e
    | Except.ok a =>
      match decodeAnswerList rest with
      | Except.error e => Except.error e
      | Except.ok as => Except.ok (a :: as)

/-- Decoding a JSON value into the `Answers` slice: null sets the slice to
nil, an array decodes elementwise, anything else is a type error. -/
def decodeAnswersVal (v : JVal) : Except String (List Answer) :=
  match v with
  | JVal.jnull => Except.ok []
  | JVal.jarr xs => decodeAnswerList xs
  | _ => Except.error "cannot unmarshal value into answers slice"

/-- JSON tags of the `Checklist` struct fields. -/
def checklistFieldNames : List String :=
  ["childName", "date", "specialist", "createdAt", "answers"]

/-- Store a decoded JSON value into the matched `Checklist` field. -/
def setChecklistField (c : Checklist) (f : String) (v : JVal) : Except String Checklist :=
  if f = "childName" then Except.map (fun x => { c with childName := x }) (decodeOptString v)
  else if f = "date" then Except.map (fun x => { c with date := x }) (decodeOptString v)
  else if f = "specialist" then Except.map (fun x => { c with specialist := x }) (decodeOptString v)
  else if f = "createdAt" then Except.map (fun x => { c with createdAt := x }) (decodeOptString v)
  else Except.map (fun x => { c with answers := x }) (decodeAnswersVal v)

/-- Fold the key/value pairs of the top-level JSON object into a
`Checklist`, rejecting unknown fields (`dec.DisallowUnknownFields()`). -/
def decodeChecklistFields : Checklist → List (String × JVal) → Except String Checklist
  | c, [] => Except.ok c
  | c, (k, v) :: rest =>
    match matchField checklistFieldNames k with
    | none => Except.error ("unknown field " ++ k)
    | some f =>
      match setChecklistField c f v with
      | Except.error e => Except.error e
      | Except.ok c2 => decodeChecklistFields c2 rest

/-- The decode step `dec.Decode(&in)` of the handler: the payload must be a
JSON object (or null, which leaves the zero struct); unknown fields and type
mismatches are errors. -/
def decodeChecklist (v : JVal) : Except String Checklist :=
  match v with
  | JVal.jnull => Except.ok Checklist.zero
  | JVal.jobj fs => decodeChecklistFields Checklist.zero fs
  | _ => Except.error "cannot unmarshal value into checklist struct"

/-- Numeric value of an ASCII digit, `none` for any other character. -/
def digitVal (c : Char) : Option Nat :=
  if '0' ≤ c ∧ c ≤ '9' then some (c.toNat - '0'.toNat) else none

/-- Two fixed digits, as Go's layout elements `01`, `02`, `15`, `04`, `05`. -/
def num2 (a b : Char) : Option Nat :=
  match digitVal a, digitVal b with
  | some x, some y => some (10 * x + y)
  | _, _ => none

/-- Four fixed digits, as Go's layout element `2006`. -/
def num4 (a b c d : Char) : Option Nat :=
  match digitVal a, digitVal b, digitVal c, digitVal d with
  | some x, some y, some z, some w => some (1000 * x + 100 * y + 10 * z + w)
  | _, _, _, _ => none

/-- Gregorian leap-year rule, as Go's `isLeap`. -/
def isLeap (y : Nat) : Bool :=
  y % 4 == 0 && (y % 100 != 0 || y % 400 == 0)

/-- Number of days of a month, as Go's `daysIn`. -/
def daysIn (m y : Nat) : Nat :=
  if m = 2 then (if isLeap y then 29 else 28)
  else if m = 4 ∨ m = 6 ∨ m = 9 ∨ m = 11 then 30
  else 31

/-- Build a date-only time after Go's range checks (month 1..12, day within
the month); a date-only parse yields midnight with zero offset. -/
def mkDate (y m d : Nat) : Option Tm :=
  if 1 ≤ m ∧ m ≤ 12 ∧ 1 ≤ d ∧ d ≤ daysIn m y then
    some { year := y, month := m, day := d, hour := 0, minute := 0, second := 0,
           nsec := 0, offsetMin := 0 }
  else none

/-- Go's `time.Parse("2006-01-02", s)`: exactly ten characters
`YYYY-MM-DD`, digits in the digit positions, month and day in range. -/
def parseDateOnly (s : String) : Option Tm :=
  match s.toList with
  | [y1, y2, y3, y4, '-', m1, m2, '-', d1, d2] =>
    match num4 y1 y2 y3 y4, num2 m1 m2, num2 d1 d2 with
    | some y, some m, some d => mkDate y m d
    | _, _, _ => none
  | _ => none

/-- Longest digit run at the head of the character list. -/
def spanDigits : List Char → List Char × List Char
  | [] => ([], [])
  | c :: rest =>
    if (digitVal c).isSome then
      let p := spanDigits rest
      (c :: p.1, p.2)
    else ([], c :: rest)

/-- Nanoseconds from a fractional-second digit run (at most nine digits are
significant, shorter runs are scaled up). -/
def fracVal (ds : List Char) : Nat :=
  (ds.take 9).foldl (fun acc c => acc * 10 + (c.toNat - '0'.toNat)) 0
    * 10 ^ (9 - (ds.take 9).length)

/-- The timezone suffix of an RFC3339 timestamp: `Z` for UTC or a signed
`hh:mm` offset with hours up to 23 and minutes up to 59; the suffix must end
the input. The result is the offset in minutes. -/
def parseTZ : List Char → Option Int
  | ['Z'] => some 0
  | [sg, h1, h2, ':', n1, n2] =>
    if sg = '+' ∨ sg = '-' then
      match num2 h1 h2, num2 n1 n2 with
      | some h, some n =>
        if h ≤ 23 ∧ n ≤ 59 then
          some (if sg = '+' then ((h * 60 + n : Nat) : Int) else -((h * 60 + n : Nat) : Int))
        else none
      | _, _ => none
    else none
  | _ => none

/-- Go's `time.Parse(time.RFC3339, s)`: `YYYY-MM-DDThh:mm:ss` with an
optional fractional-second part and a mandatory timezone suffix, with the
same range checks Go performs (month, day-in-month, hour up to 23, minute
and second up to 59). -/
def parseRFC3339 (s : String) : Option Tm :=
  match s.toList with
  | y1 :: y2 :: y3 :: y4 :: '-' :: m1 :: m2 :: '-' :: d1 :: d2 :: 'T' ::
      h1 :: h2 :: ':' :: n1 :: n2 :: ':' :: s1 :: s2 :: rest =>
    match num4 y1 y2 y3 y4, num2 m1 m2, num2 d1 d2,
          num2 h1 h2, num2 n1 n2, num2 s1 s2 with
    | some y, some mo, some d, some h, some mi, some se =>
      if 1 ≤ mo ∧ mo ≤ 12 ∧ 1 ≤ d ∧ d ≤ daysIn mo y ∧ h ≤ 23 ∧ mi ≤ 59 ∧ se ≤ 59 then
        match rest with
        | '.' :: rest2 =>
          let p := spanDigits rest2
          if p.1.length = 0 then none
          else
            match parseTZ p.2 with
            | some off =>
              some { year := y, month := mo, day := d, hour := h, minute := mi,
                     second := se, nsec := fracVal p.1, offsetMin := off }
            | none => none
        | _ =>
          match parseTZ rest with
          | some off =>
            some { year := y, month := mo, day := d, hour := h, minute := mi,
                   second := se, nsec := 0, offsetMin := off }
          | none => none
      else none
    | _, _, _, _, _, _ => none
  | _ => none

/-- The clock readings the handler can make: `nowDay` stands for
`time.Now().Truncate(24 * time.Hour)` (the current date at day granularity)
and `nowUTC` for `time.Now().UTC()` (the current instant). -/
structure Env where
  nowDay : Tm
  nowUTC : Tm
deriving DecidableEq

/-- Go's `sql.NullTime`. -/
structure NullTime where
  time : Tm
  valid : Bool
deriving DecidableEq

/-- The helper `nullTime` of `main.go`: a valid `sql.NullTime` is passed as
its time, an invalid one as SQL null. -/
def nullTime (t : NullTime) : Option Tm :=
  if t.valid then some t.time else none

/-- The helper `nullStringPtr` of `main.go`: nil pointers and strings that
trim to empty become SQL null, anything else is passed trimmed. -/
def nullStringPtr (s : Option String) : Option String :=
  match s with
  | none => none
  | some v => if trimSpace v = "" then none else some (trimSpace v)

/-- The date-normalization block of the handler: a present, non-blank `date`
must parse as `2006-01-02` or RFC3339 (tried in that order, on the trimmed
string) or the request fails with the message below; an absent or blank
`date` defaults to the current day (`time.Now().Truncate(24 * time.Hour)`). -/
def normalizeDate (env : Env) (d : Option String) : Except String NullTime :=
  match d with
  | some s =>
    if trimSpace s = "" then Except.ok { time := env.nowDay, valid := true }
    else
      match parseDateOnly (trimSpace s) with
      | some t => Except.ok { time := t, valid := true }
      | none =>
        match parseRFC3339 (trimSpace s) with
        | some t2 => Except.ok { time := t2, valid := true }
        | none => Except.error "date must be YYYY-MM-DD or RFC3339"
  | none => Except.ok { time := env.nowDay, valid := true }

/-- The createdAt-normalization block of the handler: a present, non-empty
`createdAt` is parsed as RFC3339 and silently replaced by
`time.Now().UTC()` when the parse fails; an absent or empty one also gets
the current instant. -/
def normalizeCreatedAt (env : Env) (c : Option String) : Tm :=
  match c with
  | some s =>
    if s = "" then env.nowUTC
    else
      match parseRFC3339 s with
      | some t => t
      | none => env.nowUTC
  | none => env.nowUTC

/-- One row of the `checklists` table as built by the parent INSERT of the
handler (the generated `id` plus the four bound parameters). -/
structure ChecklistRow where
  id : Nat
  child_name : Option String
  date_of_check : Option Tm
  specialist : Option String
  created_at : Tm
deriving DecidableEq

/-- One row of the `answers` table as built by the answer INSERT of the
handler (the generated `id` plus the five bound parameters). -/
structure AnswerRow where
  id : Nat
  checklist_id : Nat
  key_name : String
  label : Option String
  value : Option String
  comment : Option String
deriving DecidableEq

/-- Committed database state: the rows of the two tables and the next values
of their identifier sequences. -/
structure DBState where
  checklists : List ChecklistRow
  answers : List AnswerRow
  nextChecklistId : Nat
  nextAnswerId : Nat
deriving DecidableEq

/-- Injected database faults: whether `BeginTx`, the parent INSERT, the
statement preparation or `Commit` fail, and the loop position of the first
failing answer INSERT (if any). -/
structure Fault where
  beginFails : Bool
  parentInsertFails : Bool
  prepareFails : Bool
  answerFailsAt : Option Nat
  commitFails : Bool
deriving DecidableEq

/-- A fault-free database. -/
def noFault : Fault :=
  { beginFails := false, parentInsertFails := false, prepareFails := false,
    answerFailsAt := none, commitFails := false }

/-- The HTTP response the handler writes. -/
inductive Response where
  | created : Nat → Response
  | clientError : String → Response
  | serverError : String → Response
  | methodNotAllowed : Response
deriving DecidableEq

/-- HTTP status code of a response: 201 for the JSON identifier body, 400
for `http.StatusBadRequest`, 500 for `http.StatusInternalServerError`, 405
for `http.StatusMethodNotAllowed`. -/
def Response.status : Response → Nat
  | Response.created _ => 201
  | Response.clientError _ => 400
  | Response.serverError _ => 500
  | Response.methodNotAllowed => 405

/-- The answer row built by one iteration of the insert loop:
`stmt.ExecContext(ctx, checklistID, a.Key, a.Label, a.Value, a.Comment)`.
`Key` and `Label` are plain Go strings and arrive as (possibly empty)
non-null text; `Value` and `Comment` are pointers and may be null. -/
def mkAnswerRow (aid cid : Nat) (a : Answer) : AnswerRow :=
  { id := aid, checklist_id := cid, key_name := a.key, label := some a.label,
    value := a.value, comment := a.comment }

/-- The `for i := range in.Answers` insert loop, iterating in submitted
order: at position `i` the statement execution fails when the fault says so
(the loop halts at the first failure, `none`), otherwise one row is staged
inside the transaction. -/
def insertAnswersLoop (cid : Nat) (failAt : Option Nat) :
    Nat → Nat → List Answer → Option (List AnswerRow)
  | _, _, [] => some []
  | i, aid, a :: rest =>
    if failAt = some i then none
    else
      match insertAnswersLoop cid failAt (i + 1) (aid + 1) rest with
      | none => none
      | some rows => some (mkAnswerRow aid cid a :: rows)

/-- The rows the insert loop stages when no fault interrupts it: one row per
answer, in submitted order, with consecutive generated identifiers. -/
def buildRows (cid : Nat) : Nat → List Answer → List AnswerRow
  | _, [] => []
  | aid, a :: rest => mkAnswerRow aid cid a :: buildRows cid (aid + 1) rest

/-- The handler `checklistHandler` of `main.go`, for one request: method
check, strict JSON decode, answers-present check, date normalization,
createdAt normalization, then the transactional write. Every failing branch
rolls the transaction back (the deferred `tx.Rollback()`), so it returns
the incoming state unchanged; only a successful `Commit` publishes the
parent row and the staged answer rows. -/
def checklistHandler (env : Env) (fault : Fault) (method : String) (body : JVal)
    (st : DBState) : DBState × Response :=
  if method ≠ "POST" then (st, Response.methodNotAllowed)
  else
    match decodeChecklist body with
    | Except.error e => (st, Response.clientError ("invalid json: " ++ e))
    | Except.ok inp =>
      if inp.answers.length = 0 then (st, Response.clientError "answers must be provided")
      else
        match normalizeDate env inp.date with
        | Except.error msg => (st, Response.clientError msg)
        | Except.ok date =>
          if fault.beginFails then (st, Response.serverError "failed to begin tx")
          else if fault.parentInsertFails then
            (st, Response.serverError "failed to insert checklist")
          else if fault.prepareFails then
            (st, Response.serverError "failed to prepare answer insert")
          else
            match insertAnswersLoop st.nextChecklistId fault.answerFailsAt 0
                st.nextAnswerId inp.answers with
            | none => (st, Response.serverError "failed to insert answers")
            | some rows =>
              if fault.commitFails then (st, Response.serverError "failed to commit")
              else
                ({ checklists := st.checklists ++
                     [{ id := st.nextChecklistId,
                        child_name := nullStringPtr inp.childName,
                        date_of_check := nullTime date,
                        specialist := nullStringPtr inp.specialist,
                        created_at := normalizeCreatedAt env inp.createdAt }],
                   answers := st.answers ++ rows,
                   nextChecklistId := st.nextChecklistId + 1,
                   nextAnswerId := st.nextAnswerId + rows.length },
                 Response.created st.nextChecklistId)

/-- SQL column types used by `prepareSchema`. -/
inductive SqlType where
  | bigserial : SqlType
  | text : SqlType
  | date : SqlType
  | timestamptz : SqlType
  | bigint : SqlType
deriving DecidableEq

/-- One column of a `CREATE TABLE` statement of `prepareSchema`. -/
structure ColumnDef where
  name : String
  ty : SqlType
  notNull : Bool
  primaryKey : Bool
  defaultNow : Bool
  referencesTable : Option String
  onDeleteCascade : Bool
deriving DecidableEq

/-- A table created by `prepareSchema`. -/
structure TableDef where
  name : String
  columns : List ColumnDef
deriving DecidableEq

/-- Plain column without constraints. -/
def plainCol (n : String) (t : SqlType) : ColumnDef :=
  { name := n, ty := t, notNull := false, primaryKey := false, defaultNow := false,
    referencesTable := none, onDeleteCascade := false }

/-- The `checklists` table of `prepareSchema`: `id BIGSERIAL PRIMARY KEY`,
nullable `child_name`, `date_of_check`, `specialist`, and
`created_at TIMESTAMP WITH TIME ZONE NOT NULL DEFAULT now()`. -/
def checklistsTable : TableDef :=
  { name := "checklists",
    columns :=
      [{ plainCol "id" SqlType.bigserial with notNull := true, primaryKey := true },
       plainCol "child_name" SqlType.text,
       plainCol "date_of_check" SqlType.date,
       plainCol "specialist" SqlType.text,
       { plainCol "created_at" SqlType.timestamptz with notNull := true, defaultNow := true }] }

/-- The `answers` table of `prepareSchema`: `id BIGSERIAL PRIMARY KEY`,
`checklist_id BIGINT NOT NULL REFERENCES checklists(id) ON DELETE CASCADE`,
`key_name TEXT NOT NULL`, nullable `label`, `value`, `comment`. -/
def answersTable : TableDef :=
  { name := "answers",
    columns :=
      [{ plainCol "id" SqlType.bigserial with notNull := true, primaryKey := true },
       { plainCol "checklist_id" SqlType.bigint with
           notNull := true
           referencesTable := some "checklists"
           onDeleteCascade := true },
       { plainCol "key_name" SqlType.text with notNull := true },
       plainCol "label" SqlType.text,
       plainCol "value" SqlType.text,
       plainCol "comment" SqlType.text] }

/-- The schema `prepareSchema` creates idempotently at startup. -/
def prepareSchema : List TableDef := [checklistsTable, answersTable]

/-- A fixed clock for concrete runs: the day 2024-01-15 and the instant
2024-01-15T10:30:00Z. -/
def wEnv : Env :=
  { nowDay := { year := 2024, month := 1, day := 15, hour := 0, minute := 0,
                second := 0, nsec := 0, offsetMin := 0 },
    nowUTC := { year := 2024, month := 1, day := 15, hour := 10, minute := 30,
                second := 0, nsec := 0, offsetMin := 0 } }

/-- A freshly bootstrapped database: no rows, both sequences at 1. -/
def emptyDB : DBState :=
  { checklists := [], answers := [], nextChecklistId := 1, nextAnswerId := 1 }

/-- The example payload of the specification:
`childName "A"` and a single answer with `key "k1"` and `value "yes"`. -/
def exampleBody : JVal :=
  JVal.jobj [("childName", JVal.jstr "A"),
             ("answers", JVal.jarr [JVal.jobj [("key", JVal.jstr "k1"),
                                               ("value", JVal.jstr "yes")]])]

/-- The decoded form of `exampleBody`. -/
def exampleInput : Checklist :=
  { childName := some "A", date := none, specialist := none, createdAt := none,
    answers := [{ key := "k1", label := "", value := some "yes", comment := none }] }

/-- The database state published by a successful run of the handler. -/
def successState (env : Env) (inp : Checklist) (date : NullTime) (st : DBState) : DBState :=
  { checklists := st.checklists ++
      [{ id := st.nextChecklistId, child_name := nullStringPtr inp.childName,
         date_of_check := nullTime date, specialist := nullStringPtr inp.specialist,
         created_at := normalizeCreatedAt env inp.createdAt }],
    answers := st.answers ++ buildRows st.nextChecklistId st.nextAnswerId inp.answers,
    nextChecklistId := st.nextChecklistId + 1,
    nextAnswerId :=
      st.nextAnswerId + (buildRows st.nextChecklistId st.nextAnswerId inp.answers).length }

/-- A fault that makes the very first answer insert fail. -/
def failAt0 : Fault := { noFault with answerFailsAt := some 0 }

/-- A fault that makes the final commit fail. -/
def commitFault : Fault := { noFault with commitFails := true }

/-- A payload that omits the answers field entirely. -/
def noAnswersBody : JVal := JVal.jobj [("childName", JVal.jstr "B")]

/-- The decoded form of `noAnswersBody`: the answers slice stays nil. -/
def noAnswersInput : Checklist :=
  { childName := some "B", date := none, specialist := none, createdAt := none,
    answers := [] }

/-- A payload whose date is not in any accepted format. -/
def badDateBody : JVal :=
  JVal.jobj [("date", JVal.jstr "not-a-date"),
             ("answers", JVal.jarr [JVal.jobj [("key", JVal.jstr "k")]])]

/-- The decoded form of `badDateBody`. -/
def badDateInput : Checklist :=
  { childName := none, date := some "not-a-date", specialist := none, createdAt := none,
    answers := [{ key := "k", label := "", value := none, comment := none }] }

/-- A payload whose date is the plain calendar date 2024-01-15. -/
def dateBody : JVal :=
  JVal.jobj [("date", JVal.jstr "2024-01-15"),
             ("answers", JVal.jarr [JVal.jobj [("key", JVal.jstr "k")]])]

/-- The decoded form of `dateBody`. -/
def dateInput : Checklist :=
  { childName := none, date := some "2024-01-15", specialist := none, createdAt := none,
    answers := [{ key := "k", label := "", value := none, comment := none }] }

/-- A payload whose createdAt is unparseable garbage. -/
def garbageCreatedAtBody : JVal :=
  JVal.jobj [("createdAt", JVal.jstr "garbage"),
             ("answers", JVal.jarr [JVal.jobj [("key", JVal.jstr "k")]])]

/-- The decoded form of `garbageCreatedAtBody`. -/
def garbageCreatedAtInput : Checklist :=
  { childName := none, date := none, specialist := none, createdAt := some "garbage",
    answers := [{ key := "k", label := "", value := none, comment := none }] }

/-- A payload carrying an unknown top-level field besides valid ones. -/
def unknownFieldBody : JVal :=
  JVal.jobj [("foo", JVal.jnum 1),
             ("answers", JVal.jarr [JVal.jobj [("key", JVal.jstr "k")]])]

/-- A payload whose childName carries surrounding whitespace and whose
specialist trims to nothing. -/
def trimBody : JVal :=
  JVal.jobj [("childName", JVal.jstr "  A  "), ("specialist", JVal.jstr "   "),
             ("answers", JVal.jarr [JVal.jobj [("key", JVal.jstr "k")]])]

/-- The decoded form of `trimBody`. -/
def trimInput : Checklist :=
  { childName := some "  A  ", date := none, specialist := some "   ", createdAt := none,
    answers := [{ key := "k", label := "", value := none, comment := none }] }

/-- A payload whose single answer has an empty key and a value with
whitespace that must survive untouched. -/
def emptyKeyBody : JVal :=
  JVal.jobj [("answers", JVal.jarr [JVal.jobj [("key", JVal.jstr ""),
                                               ("value", JVal.jstr "  yes  ")]])]

/-- The decoded form of `emptyKeyBody`. -/
def emptyKeyInput : Checklist :=
  { childName := none, date := none, specialist := none, createdAt := none,
    answers := [{ key := "", label := "", value := some "  yes  ", comment := none }] }

/-- A successful insert loop stages exactly `buildRows`, and any injected
answer fault must lie outside the range of visited loop positions. -/
lemma insertAnswersLoop_some {cid : Nat} {failAt : Option Nat} :
    ∀ {as : List Answer} {i aid : Nat} {rows : List AnswerRow},
      insertAnswersLoop cid failAt i aid as = some rows →
      rows = buildRows cid aid as ∧ (∀ j, failAt = some j → j < i ∨ i + as.length ≤ j) := by
  intro as
  induction as with
  | nil =>
    intro i aid rows h
    simp only [insertAnswersLoop] at h
    cases h
    refine ⟨rfl, fun j hj => ?_⟩
    simp only [List.length_nil]
    omega
  | cons a rest ih =>
    intro i aid rows h
    simp only [insertAnswersLoop] at h
    by_cases hf : failAt = some i
    · simp [hf] at h
    · rw [if_neg hf] at h
      cases hrec : insertAnswersLoop cid failAt (i + 1) (aid + 1) rest with
      | none => rw [hrec] at h; exact absurd h (by simp)
      | some rows2 =>
        rw [hrec] at h
        cases h
        obtain ⟨h1, h2⟩ := ih hrec
        refine ⟨by simp [buildRows, h1], fun j hj => ?_⟩
        rcases h2 j hj with hlt | hge
        · left
          have hne : j ≠ i := fun hji => hf (hji ▸ hj)
          omega
        · right
          simp only [List.length_cons]
          omega

/-- With no answer fault injected the insert loop always succeeds and
stages `buildRows`. -/
lemma insertAnswersLoop_noFault {cid : Nat} :
    ∀ (as : List Answer) (i aid : Nat),
      insertAnswersLoop cid none i aid as = some (buildRows cid aid as) := by
  intro as
  induction as with
  | nil => intro i aid; simp [insertAnswersLoop, buildRows]
  | cons a rest ih =>
    intro i aid
    simp [insertAnswersLoop, buildRows, ih rest.length]
    exact ih (i + 1) (aid + 1) ▸ rfl

/-- `buildRows` stages one row per answer. -/
lemma buildRows_length {cid : Nat} :
    ∀ (as : List Answer) (aid : Nat), (buildRows cid aid as).length = as.length := by
  intro as
  induction as with
  | nil => intro aid; rfl
  | cons a rest ih => intro aid; simp [buildRows, ih]

/-- The row staged at position `n` is the `n`-th submitted answer with the
`n`-th generated identifier, referencing the parent. -/
lemma buildRows_get {cid : Nat} :
    ∀ (as : List Answer) (aid n : Nat) (h : n < (buildRows cid aid as).length)
      (h2 : n < as.length),
      (buildRows cid aid as).get ⟨n, h⟩ = mkAnswerRow (aid + n) cid (as.get ⟨n, h2⟩) := by
  intro as
  induction as with
  | nil => intro aid n h h2; exact absurd h2 (by simp)
  | cons a rest ih =>
    intro aid n h h2
    cases n with
    | zero => simp [buildRows, mkAnswerRow]
    | succ m =>
      have hm : m < (buildRows cid (aid + 1) rest).length := by
        simpa [buildRows] using h
      have hm2 : m < rest.length := by simpa using h2
      calc (buildRows cid aid (a :: rest)).get ⟨m + 1, h⟩
          = (buildRows cid (aid + 1) rest).get ⟨m, hm⟩ := rfl
        _ = mkAnswerRow (aid + 1 + m) cid (rest.get ⟨m, hm2⟩) := ih (aid + 1) m hm hm2
        _ = mkAnswerRow (aid + (m + 1)) cid ((a :: rest).get ⟨m + 1, h2⟩) := by
            norm_num [Nat.add_assoc, Nat.add_comm 1 m]

/-- Every staged answer row references the parent identifier. -/
lemma buildRows_mem_cid {cid : Nat} :
    ∀ {as : List Answer} {aid : Nat} {r : AnswerRow},
      r ∈ buildRows cid aid as → r.checklist_id = cid := by
  intro as
  induction as with
  | nil => intro aid r h; exact absurd h (by simp [buildRows])
  | cons a rest ih =>
    intro aid r h
    rcases List.mem_cons.mp h with heq | hmem
    · rw [heq]; rfl
    · exact ih hmem

/-- Every run of the handler either leaves the database untouched and does
not report creation, or it passed every check and fault point, published
exactly the parent row and the staged answer rows, and reported the
generated parent identifier. -/
lemma checklistHandler_cases (env : Env) (fault : Fault) (method : String) (body : JVal)
    (st : DBState) :
    (∃ r, checklistHandler env fault method body st = (st, r) ∧
       ∀ id, r ≠ Response.created id)
    ∨ ∃ inp date,
        decodeChecklist body = Except.ok inp ∧
        method = "POST" ∧
        inp.answers.length ≠ 0 ∧
        normalizeDate env inp.date = Except.ok date ∧
        fault.beginFails = false ∧ fault.parentInsertFails = false ∧
        fault.prepareFails = false ∧ fault.commitFails = false ∧
        insertAnswersLoop st.nextChecklistId fault.answerFailsAt 0 st.nextAnswerId inp.answers
          = some (buildRows st.nextChecklistId st.nextAnswerId inp.answers) ∧
        checklistHandler env fault method body st =
          (successState env inp date st, Response.created st.nextChecklistId) := by
  unfold checklistHandler
  split
  · exact Or.inl ⟨_, rfl, fun id h => Response.noConfusion h⟩
  next hm =>
    split
    next e hdec => exact Or.inl ⟨_, rfl, fun id h => Response.noConfusion h⟩
    next inp hdec =>
      split
      next hlen => exact Or.inl ⟨_, rfl, fun id h => Response.noConfusion h⟩
      next hlen =>
        split
        next msg hdate => exact Or.inl ⟨_, rfl, fun id h => Response.noConfusion h⟩
        next date hdate =>
          split
          next hb => exact Or.inl ⟨_, rfl, fun id h => Response.noConfusion h⟩
          next hb =>
            split
            next hp => exact Or.inl ⟨_, rfl, fun id h => Response.noConfusion h⟩
            next hp =>
              split
              next hq => exact Or.inl ⟨_, rfl, fun id h => Response.noConfusion h⟩
              next hq =>
                cases hloop : insertAnswersLoop st.nextChecklistId fault.answerFailsAt 0
                    st.nextAnswerId inp.answers with
                | none =>
                  exact Or.inl ⟨Response.serverError "failed to insert answers", rfl,
                    fun id h => Response.noConfusion h⟩
                | some rows =>
                  obtain ⟨hrows, -⟩ := insertAnswersLoop_some hloop
                  subst hrows
                  by_cases hc : fault.commitFails = true
                  · refine Or.inl ⟨Response.serverError "failed to commit", ?_,
                      fun id h => Response.noConfusion h⟩
                    simp only [hloop, if_pos hc]
                  · refine Or.inr ⟨inp, date, hdec, by simpa using hm, hlen, hdate,
                      by simpa using hb, by simpa using hp, by simpa using hq,
                      by simpa using hc, hloop, ?_⟩
                    simp only [hloop, if_neg hc]
                    rfl

/-- Folding the fields of a JSON object fails whenever some key matches no
struct field of `Checklist`, whatever happened before that key. -/
lemma decodeChecklistFields_unknown :
    ∀ (fs : List (String × JVal)) (c : Checklist) (k : String) (v : JVal),
      (k, v) ∈ fs → matchField checklistFieldNames k = none →
      ∃ e, decodeChecklistFields c fs = Except.error e := by
  intro fs
  induction fs with
  | nil => intro c k v hmem _; exact absurd hmem (List.not_mem_nil _)
  | cons p rest ih =>
    intro c k v hmem hk
    obtain ⟨k0, v0⟩ := p
    simp only [decodeChecklistFields]
    rcases List.mem_cons.mp hmem with heq | hmem2
    · cases heq
      simp only [hk]
      exact ⟨_, rfl⟩
    · cases hmatch : matchField checklistFieldNames k0 with
      | none =>
        exact ⟨"unknown field " ++ k0, rfl⟩
      | some f =>
        simp only [hmatch]
        cases hset : setChecklistField c f v0 with
        | error e =>
          exact ⟨e, rfl⟩
        | ok c2 =>
          simp only [hset]
          exact ih c2 k v hmem2 hk

/-- `normalizeDate` only ever produces a valid (non-null) `sql.NullTime`. -/
lemma normalizeDate_valid {env : Env} {d : Option String} {date : NullTime}
    (h : normalizeDate env d = Except.ok date) : date.valid = true := by
  cases d with
  | none =>
    simp only [normalizeDate] at h
    cases h
    rfl
  | some s =>
    simp only [normalizeDate] at h
    by_cases ht : trimSpace s = ""
    · rw [if_pos ht] at h
      cases h
      rfl
    · rw [if_neg ht] at h
      cases h1 : parseDateOnly (trimSpace s) with
      | some t => rw [h1] at h; cases h; rfl
      | none =>
        rw [h1] at h
        cases h2 : parseRFC3339 (trimSpace s) with
        | some t2 => rw [h2] at h; cases h; rfl
        | none => rw [h2] at h; cases h

/-- A decode failure makes the handler answer 400 with the decoder's message
and leave the database untouched. -/
lemma handler_decode_error (env : Env) (fault : Fault) (body : JVal) (st : DBState)
    (e : String) (hdec : decodeChecklist body = Except.error e) :
    checklistHandler env fault "POST" body st =
      (st, Response.clientError ("invalid json: " ++ e)) := by
  unfold checklistHandler
  rw [hdec]
  rfl

/-- A date-normalization failure makes the handler answer 400 with the date
message and leave the database untouched, whatever faults are pending. -/
lemma handler_date_error (env : Env) (fault : Fault) (body : JVal) (st : DBState)
    (inp : Checklist) (msg : String)
    (hdec : decodeChecklist body = Except.ok inp)
    (hne : inp.answers.length ≠ 0)
    (hdate : normalizeDate env inp.date = Except.error msg) :
    checklistHandler env fault "POST" body st = (st, Response.clientError msg) := by
  unfold checklistHandler
  rw [hdec]
  simp [hne, hdate]

/-- Without injected faults a validated submission always commits: the
handler publishes the success state and reports the generated parent
identifier. -/
lemma handler_success (env : Env) (body : JVal) (st : DBState) (inp : Checklist)
    (date : NullTime)
    (hdec : decodeChecklist body = Except.ok inp)
    (hne : inp.answers.length ≠ 0)
    (hdate : normalizeDate env inp.date = Except.ok date) :
    checklistHandler env noFault "POST" body st =
      (successState env inp date st, Response.created st.nextChecklistId) := by
  unfold checklistHandler
  rw [hdec]
  simp [hne, hdate, noFault, insertAnswersLoop_noFault, successState]

/-- Claim C1: for every submission in which some answer insert fails (at any
position in the loop), or in which the commit fails, zero rows remain for
that submission afterward: the parent insert and all previously inserted
answer rows are rolled back, so an observer sees a checklist either not at
all or complete with every submitted answer. -/
theorem claim1_rollback (env : Env) (fault : Fault) (method : String) (body : JVal)
    (st : DBState) (inp : Checklist)
    (hdec : decodeChecklist body = Except.ok inp)
    (hfail : (∃ i, fault.answerFailsAt = some i ∧ i < inp.answers.length) ∨
      fault.commitFails = true) :
    (checklistHandler env fault method body st).1 = st := by
  rcases checklistHandler_cases env fault method body st with ⟨r, heq, -⟩ |
    ⟨inp2, date, hdec2, -, -, -, -, -, -, hc, hloop, heq⟩
  · rw [heq]
  · rw [hdec] at hdec2
    cases Except.ok.inj hdec2
    rcases hfail with ⟨i, hi, hilen⟩ | hcf
    · obtain ⟨-, hout⟩ := insertAnswersLoop_some hloop
      rcases hout i hi with hlt | hge
      · omega
      · omega
    · rw [hcf] at hc
      exact Bool.noConfusion hc

theorem claim1_rollback_witness :
    decodeChecklist exampleBody = Except.ok exampleInput ∧
    (∃ i, failAt0.answerFailsAt = some i ∧ i < exampleInput.answers.length) ∧
    (checklistHandler wEnv failAt0 "POST" exampleBody emptyDB).1 = emptyDB ∧
    (checklistHandler wEnv commitFault "POST" exampleBody emptyDB).1 = emptyDB :=
  ⟨rfl, ⟨0, rfl, by decide⟩,
    claim1_rollback wEnv failAt0 "POST" exampleBody emptyDB exampleInput rfl
      (Or.inl ⟨0, rfl, by decide⟩),
    claim1_rollback wEnv commitFault "POST" exampleBody emptyDB exampleInput rfl
      (Or.inr rfl)⟩

/-- Claim C2: for every valid submission with at least one answer whose
persistence succeeds, exactly one parent row and exactly one child row per
answer referencing that parent are created (children in the submitted
order), and the response is status 201 whose identifier equals the
generated parent row identifier. -/
theorem claim2_success (env : Env) (fault : Fault) (method : String) (body : JVal)
    (st : DBState) (inp : Checklist) (cid : Nat)
    (hdec : decodeChecklist body = Except.ok inp)
    (_hN : 1 ≤ inp.answers.length)
    (hresp : (checklistHandler env fault method body st).2 = Response.created cid) :
    ∃ prow rows,
      (checklistHandler env fault method body st).1.checklists = st.checklists ++ [prow] ∧
      prow.id = cid ∧
      (checklistHandler env fault method body st).1.answers = st.answers ++ rows ∧
      rows.length = inp.answers.length ∧
      (∀ r ∈ rows, r.checklist_id = cid) ∧
      (∀ n (hn : n < rows.length) (hn2 : n < inp.answers.length),
          (rows.get ⟨n, hn⟩).key_name = (inp.answers.get ⟨n, hn2⟩).key ∧
          (rows.get ⟨n, hn⟩).value = (inp.answers.get ⟨n, hn2⟩).value ∧
          (rows.get ⟨n, hn⟩).comment = (inp.answers.get ⟨n, hn2⟩).comment) ∧
      Response.status ((checklistHandler env fault method body st).2) = 201 := by
  rcases checklistHandler_cases env fault method body st with ⟨r, heq, hnc⟩ |
    ⟨inp2, date, hdec2, -, -, -, -, -, -, -, hloop, heq⟩
  · rw [heq] at hresp
    exact absurd hresp (hnc cid)
  · rw [hdec] at hdec2
    cases Except.ok.inj hdec2
    rw [heq] at hresp
    cases Response.created.inj hresp
    refine ⟨{ id := st.nextChecklistId, child_name := nullStringPtr inp.childName,
              date_of_check := nullTime date, specialist := nullStringPtr inp.specialist,
              created_at := normalizeCreatedAt env inp.createdAt },
      buildRows st.nextChecklistId st.nextAnswerId inp.answers,
      by rw [heq]; rfl, rfl, by rw [heq]; rfl,
      buildRows_length inp.answers st.nextAnswerId,
      fun r hr => buildRows_mem_cid hr, ?_, by rw [heq]; rfl⟩
    intro n hn hn2
    rw [buildRows_get inp.answers st.nextAnswerId n hn hn2]
    exact ⟨rfl, rfl, rfl⟩

theorem claim2_success_witness :
    decodeChecklist exampleBody = Except.ok exampleInput ∧
    1 ≤ exampleInput.answers.length ∧
    (checklistHandler wEnv noFault "POST" exampleBody emptyDB).2 = Response.created 1 ∧
    (∃ prow rows,
      (checklistHandler wEnv noFault "POST" exampleBody emptyDB).1.checklists =
        emptyDB.checklists ++ [prow] ∧
      prow.id = 1 ∧
      (checklistHandler wEnv noFault "POST" exampleBody emptyDB).1.answers =
        emptyDB.answers ++ rows ∧
      rows.length = exampleInput.answers.length ∧
      (∀ r ∈ rows, r.checklist_id = 1) ∧
      (∀ n (hn : n < rows.length) (hn2 : n < exampleInput.answers.length),
          (rows.get ⟨n, hn⟩).key_name = (exampleInput.answers.get ⟨n, hn2⟩).key ∧
          (rows.get ⟨n, hn⟩).value = (exampleInput.answers.get ⟨n, hn2⟩).value ∧
          (rows.get ⟨n, hn⟩).comment = (exampleInput.answers.get ⟨n, hn2⟩).comment) ∧
      Response.status ((checklistHandler wEnv noFault "POST" exampleBody emptyDB).2) = 201) :=
  ⟨rfl, by decide, rfl,
    claim2_success wEnv noFault "POST" exampleBody emptyDB exampleInput 1 rfl (by decide) rfl⟩

/-- Claim C3: for every submission whose answers array is empty (or absent,
which decodes to the empty slice), the request is rejected with status 400
before any persistence attempt, and no rows are created. -/
theorem claim3_empty_answers (env : Env) (fault : Fault) (body : JVal) (st : DBState)
    (inp : Checklist)
    (hdec : decodeChecklist body = Except.ok inp)
    (hempty : inp.answers = []) :
    checklistHandler env fault "POST" body st =
      (st, Response.clientError "answers must be provided") ∧
    (checklistHandler env fault "POST" body st).1 = st ∧
    Response.status ((checklistHandler env fault "POST" body st).2) = 400 := by
  have h0 : inp.answers.length = 0 := by rw [hempty]; rfl
  have heq : checklistHandler env fault "POST" body st =
      (st, Response.clientError "answers must be provided") := by
    unfold checklistHandler
    rw [hdec]
    simp [h0]
  exact ⟨heq, by rw [heq], by rw [heq]; rfl⟩

theorem claim3_empty_answers_witness :
    decodeChecklist noAnswersBody = Except.ok noAnswersInput ∧
    noAnswersInput.answers = [] ∧
    checklistHandler wEnv noFault "POST" noAnswersBody emptyDB =
      (emptyDB, Response.clientError "answers must be provided") ∧
    (checklistHandler wEnv noFault "POST" noAnswersBody emptyDB).1 = emptyDB ∧
    Response.status ((checklistHandler wEnv noFault "POST" noAnswersBody emptyDB).2) = 400 :=
  ⟨rfl, rfl,
    claim3_empty_answers wEnv noFault noAnswersBody emptyDB noAnswersInput rfl rfl⟩

/-- Claim C4: for every submission, a present non-blank date must parse as a
plain calendar date `2006-01-02` or as an RFC3339 timestamp with timezone
offset; any other format is rejected with status 400 (whatever database
faults are pending, since no persistence is attempted); an absent or blank
date defaults to the current date at day granularity and, on success, is
stored non-null. -/
theorem claim4_date_rules (env : Env) (fault : Fault) (body : JVal) (st : DBState)
    (inp : Checklist)
    (hdec : decodeChecklist body = Except.ok inp)
    (hne : inp.answers ≠ []) :
    (∀ s, inp.date = some s → trimSpace s ≠ "" →
       parseDateOnly (trimSpace s) = none → parseRFC3339 (trimSpace s) = none →
       checklistHandler env fault "POST" body st =
         (st, Response.clientError "date must be YYYY-MM-DD or RFC3339") ∧
       Response.status ((checklistHandler env fault "POST" body st).2) = 400) ∧
    (∀ s t, inp.date = some s → trimSpace s ≠ "" → parseDateOnly (trimSpace s) = some t →
       normalizeDate env inp.date = Except.ok { time := t, valid := true }) ∧
    (∀ s t, inp.date = some s → trimSpace s ≠ "" → parseDateOnly (trimSpace s) = none →
       parseRFC3339 (trimSpace s) = some t →
       normalizeDate env inp.date = Except.ok { time := t, valid := true }) ∧
    ((inp.date = none ∨ ∃ s, inp.date = some s ∧ trimSpace s = "") →
       normalizeDate env inp.date = Except.ok { time := env.nowDay, valid := true }) ∧
    (∀ cid date, (checklistHandler env fault "POST" body st).2 = Response.created cid →
       normalizeDate env inp.date = Except.ok date →
       ∃ prow, (checklistHandler env fault "POST" body st).1.checklists =
           st.checklists ++ [prow] ∧
         prow.date_of_check = some date.time) := by
  have hlen : inp.answers.length ≠ 0 := fun h => hne (List.length_eq_zero.mp h)
  refine ⟨?_, ?_, ?_, ?_, ?_⟩
  · intro s hds htrim hp1 hp2
    have hdate : normalizeDate env inp.date =
        Except.error "date must be YYYY-MM-DD or RFC3339" := by
      rw [hds]
      simp only [normalizeDate, if_neg htrim, hp1, hp2]
    have heq := handler_date_error env fault body st inp _ hdec hlen hdate
    exact ⟨heq, by rw [heq]; rfl⟩
  · intro s t hds htrim hp1
    rw [hds]
    simp only [normalizeDate, if_neg htrim, hp1]
  · intro s t hds htrim hp1 hp2
    rw [hds]
    simp only [normalizeDate, if_neg htrim, hp1, hp2]
  · intro h
    rcases h with hnone | ⟨s, hds, htrim⟩
    · rw [hnone]
      rfl
    · rw [hds]
      simp only [normalizeDate, if_pos htrim]
  · intro cid date hresp hdate
    rcases checklistHandler_cases env fault "POST" body st with ⟨r, heq, hnc⟩ |
      ⟨inp2, date2, hdec2, -, -, hdate2, -, -, -, -, -, heq⟩
    · rw [heq] at hresp
      exact absurd hresp (hnc cid)
    · rw [hdec] at hdec2
      cases Except.ok.inj hdec2
      rw [hdate] at hdate2
      cases Except.ok.inj hdate2
      refine ⟨{ id := st.nextChecklistId, child_name := nullStringPtr inp.childName,
                date_of_check := nullTime date, specialist := nullStringPtr inp.specialist,
                created_at := normalizeCreatedAt env inp.createdAt },
        by rw [heq]; rfl, ?_⟩
      show nullTime date = some date.time
      unfold nullTime
      rw [normalizeDate_valid hdate]
      rfl

theorem claim4_date_rules_witness :
    decodeChecklist badDateBody = Except.ok badDateInput ∧
    badDateInput.answers ≠ [] ∧
    checklistHandler wEnv noFault "POST" badDateBody emptyDB =
      (emptyDB, Response.clientError "date must be YYYY-MM-DD or RFC3339") ∧
    normalizeDate wEnv dateInput.date =
      Except.ok { time := wEnv.nowDay, valid := true } ∧
    normalizeDate wEnv exampleInput.date =
      Except.ok { time := wEnv.nowDay, valid := true } :=
  ⟨rfl, by decide,
    ((claim4_date_rules wEnv noFault badDateBody emptyDB badDateInput rfl (by decide)).1
      "not-a-date" rfl (by decide) rfl rfl).1,
    (claim4_date_rules wEnv noFault dateBody emptyDB dateInput rfl (by decide)).2.1
      "2024-01-15" wEnv.nowDay rfl (by decide) rfl,
    (claim4_date_rules wEnv noFault exampleBody emptyDB exampleInput rfl
        (by decide)).2.2.2.1 (Or.inl rfl)⟩

/-- Claim C5: for every submission whose createdAt field is present but
fails to parse as an RFC3339 timestamp, the request is not rejected: the
value is silently replaced with the server's current instant and the
submission otherwise succeeds with status 201 — asymmetrically with the
strict handling of the date field. -/
theorem claim5_createdAt_lenient (env : Env) (body : JVal) (st : DBState) (inp : Checklist)
    (s : String) (date : NullTime)
    (hdec : decodeChecklist body = Except.ok inp)
    (hc : inp.createdAt = some s)
    (hs : s ≠ "")
    (hp : parseRFC3339 s = none)
    (hne : inp.answers.length ≠ 0)
    (hdate : normalizeDate env inp.date = Except.ok date) :
    normalizeCreatedAt env inp.createdAt = env.nowUTC ∧
    (checklistHandler env noFault "POST" body st).2 = Response.created st.nextChecklistId ∧
    Response.status ((checklistHandler env noFault "POST" body st).2) = 201 ∧
    ∃ prow, (checklistHandler env noFault "POST" body st).1.checklists =
        st.checklists ++ [prow] ∧
      prow.created_at = env.nowUTC := by
  have hnorm : normalizeCreatedAt env inp.createdAt = env.nowUTC := by
    rw [hc]
    simp only [normalizeCreatedAt, if_neg hs, hp]
  have heq := handler_success env body st inp date hdec hne hdate
  refine ⟨hnorm, by rw [heq], by rw [heq]; rfl, ?_⟩
  refine ⟨{ id := st.nextChecklistId, child_name := nullStringPtr inp.childName,
            date_of_check := nullTime date, specialist := nullStringPtr inp.specialist,
            created_at := normalizeCreatedAt env inp.createdAt },
    by rw [heq]; rfl, hnorm⟩

theorem claim5_createdAt_lenient_witness :
    decodeChecklist garbageCreatedAtBody = Except.ok garbageCreatedAtInput ∧
    garbageCreatedAtInput.createdAt = some "garbage" ∧
    parseRFC3339 "garbage" = none ∧
    normalizeCreatedAt wEnv garbageCreatedAtInput.createdAt = wEnv.nowUTC ∧
    (checklistHandler wEnv noFault "POST" garbageCreatedAtBody emptyDB).2 =
      Response.created 1 ∧
    Response.status
      ((checklistHandler wEnv noFault "POST" garbageCreatedAtBody emptyDB).2) = 201 ∧
    (∃ prow,
      (checklistHandler wEnv noFault "POST" garbageCreatedAtBody emptyDB).1.checklists =
        emptyDB.checklists ++ [prow] ∧
      prow.created_at = wEnv.nowUTC) :=
  ⟨rfl, rfl, rfl,
    claim5_createdAt_lenient wEnv garbageCreatedAtBody emptyDB garbageCreatedAtInput
      "garbage" { time := wEnv.nowDay, valid := true } rfl rfl (by decide) rfl
      (by decide) rfl⟩

/-- Claim C6: for every submission whose JSON payload contains an unknown
top-level field, or does not deserialize into the expected shape, the
request is rejected with status 400 before any persistence attempt. -/
theorem claim6_unknown_field (env : Env) (fault : Fault) (st : DBState) :
    (∀ body e, decodeChecklist body = Except.error e →
       checklistHandler env fault "POST" body st =
         (st, Response.clientError ("invalid json: " ++ e)) ∧
       (checklistHandler env fault "POST" body st).1 = st ∧
       Response.status ((checklistHandler env fault "POST" body st).2) = 400) ∧
    (∀ fs k v, (k, v) ∈ fs → matchField checklistFieldNames k = none →
       ∃ e, decodeChecklist (JVal.jobj fs) = Except.error e) := by
  constructor
  · intro body e hdec
    have heq := handler_decode_error env fault body st e hdec
    exact ⟨heq, by rw [heq], by rw [heq]; rfl⟩
  · intro fs k v hmem hk
    exact decodeChecklistFields_unknown fs Checklist.zero k v hmem hk

theorem claim6_unknown_field_witness :
    matchField checklistFieldNames "foo" = none ∧
    decodeChecklist unknownFieldBody = Except.error "unknown field foo" ∧
    checklistHandler wEnv noFault "POST" unknownFieldBody emptyDB =
      (emptyDB, Response.clientError ("invalid json: " ++ "unknown field foo")) ∧
    (∃ e, decodeChecklist (JVal.jobj [("foo", JVal.jnum 1)]) = Except.error e) :=
  ⟨rfl, rfl,
    ((claim6_unknown_field wEnv noFault emptyDB).1 unknownFieldBody "unknown field foo"
      rfl).1,
    (claim6_unknown_field wEnv noFault emptyDB).2 [("foo", JVal.jnum 1)] "foo"
      (JVal.jnum 1) (List.mem_singleton.mpr rfl) rfl⟩

/-- Claim C7 counterexample: on the specification's example input the
submission succeeds, but the persisted answer row's label is the empty
string, not SQL null — `Label` is a plain Go string, so an absent label
decodes to `""` and is bound as non-null text. -/
theorem claim7_example_counterexample :
    (checklistHandler wEnv noFault "POST" exampleBody emptyDB).2 = Response.created 1 ∧
    ((checklistHandler wEnv noFault "POST" exampleBody emptyDB).1.answers.map
      AnswerRow.label) = [some ""] ∧
    ¬ (((checklistHandler wEnv noFault "POST" exampleBody emptyDB).1.answers.map
      AnswerRow.label) = [none]) :=
  ⟨rfl, rfl, by decide⟩

/-- Claim C7 (amended): for the example input the response is 201 with the
generated identifier, and the persisted state holds one parent row with
child_name "A" and date_of_check equal to the current day, and exactly one
child row with key_name "k1", value "yes", comment null, and label equal to
the empty string (not null). -/
theorem claim7_example_scenario (env : Env) :
    checklistHandler env noFault "POST" exampleBody emptyDB =
      ({ checklists := [{ id := 1, child_name := some "A",
                          date_of_check := some env.nowDay, specialist := none,
                          created_at := env.nowUTC }],
         answers := [{ id := 1, checklist_id := 1, key_name := "k1",
                       label := some "", value := some "yes", comment := none }],
         nextChecklistId := 2, nextAnswerId := 2 },
       Response.created 1) := rfl

/-- Claim C8: for every accepted submission, the stored childName and
specialist values are the trimmed versions of the submitted strings, and
whenever the trimmed result is empty (or the field is absent) the field is
stored as null, never as an empty string. -/
theorem claim8_trimmed_text (env : Env) (fault : Fault) (method : String) (body : JVal)
    (st : DBState) (inp : Checklist) (cid : Nat)
    (hdec : decodeChecklist body = Except.ok inp)
    (hresp : (checklistHandler env fault method body st).2 = Response.created cid) :
    (∃ prow, (checklistHandler env fault method body st).1.checklists =
        st.checklists ++ [prow] ∧
      prow.child_name = nullStringPtr inp.childName ∧
      prow.specialist = nullStringPtr inp.specialist) ∧
    (∀ s, nullStringPtr (some s) =
      if trimSpace s = "" then none else some (trimSpace s)) ∧
    nullStringPtr none = none ∧
    (∀ v, nullStringPtr v ≠ some "") := by
  refine ⟨?_, fun s => rfl, rfl, ?_⟩
  · rcases checklistHandler_cases env fault method body st with ⟨r, heq, hnc⟩ |
      ⟨inp2, date, hdec2, -, -, -, -, -, -, -, -, heq⟩
    · rw [heq] at hresp
      exact absurd hresp (hnc cid)
    · rw [hdec] at hdec2
      cases Except.ok.inj hdec2
      exact ⟨{ id := st.nextChecklistId, child_name := nullStringPtr inp.childName,
               date_of_check := nullTime date, specialist := nullStringPtr inp.specialist,
               created_at := normalizeCreatedAt env inp.createdAt },
        by rw [heq]; rfl, rfl, rfl⟩
  · intro v h
    cases v with
    | none => exact Option.noConfusion h
    | some s =>
      simp only [nullStringPtr] at h
      by_cases ht : trimSpace s = ""
      · rw [if_pos ht] at h
        exact Option.noConfusion h
      · rw [if_neg ht] at h
        exact ht (Option.some.inj h)

theorem claim8_trimmed_text_witness :
    decodeChecklist trimBody = Except.ok trimInput ∧
    (checklistHandler wEnv noFault "POST" trimBody emptyDB).2 = Response.created 1 ∧
    nullStringPtr trimInput.childName = some "A" ∧
    nullStringPtr trimInput.specialist = none ∧
    (∃ prow, (checklistHandler wEnv noFault "POST" trimBody emptyDB).1.checklists =
        emptyDB.checklists ++ [prow] ∧
      prow.child_name = nullStringPtr trimInput.childName ∧
      prow.specialist = nullStringPtr trimInput.specialist) :=
  ⟨rfl, rfl, rfl, rfl,
    (claim8_trimmed_text wEnv noFault "POST" trimBody emptyDB trimInput 1 rfl rfl).1⟩

/-- Claim C9: for every accepted submission the persisted checklist's
createdAt is a concrete timestamp: whether the caller supplies a parseable
value, an unparseable value, or no value at all, every path through
normalization assigns it, so it is never null or missing; the schema also
declares the column NOT NULL with a now() default. -/
theorem claim9_createdAt_total (env : Env) (fault : Fault) (method : String) (body : JVal)
    (st : DBState) (inp : Checklist) (cid : Nat)
    (hdec : decodeChecklist body = Except.ok inp)
    (hresp : (checklistHandler env fault method body st).2 = Response.created cid) :
    (∃ prow, (checklistHandler env fault method body st).1.checklists =
        st.checklists ++ [prow] ∧
      prow.created_at = normalizeCreatedAt env inp.createdAt) ∧
    (∀ c, normalizeCreatedAt env c = env.nowUTC ∨
       ∃ s t, c = some s ∧ s ≠ "" ∧ parseRFC3339 s = some t ∧
         normalizeCreatedAt env c = t) ∧
    (∃ col, col ∈ checklistsTable.columns ∧ col.name = "created_at" ∧
       col.notNull = true ∧ col.defaultNow = true) := by
  refine ⟨?_, ?_, ?_⟩
  · rcases checklistHandler_cases env fault method body st with ⟨r, heq, hnc⟩ |
      ⟨inp2, date, hdec2, -, -, -, -, -, -, -, -, heq⟩
    · rw [heq] at hresp
      exact absurd hresp (hnc cid)
    · rw [hdec] at hdec2
      cases Except.ok.inj hdec2
      exact ⟨{ id := st.nextChecklistId, child_name := nullStringPtr inp.childName,
               date_of_check := nullTime date, specialist := nullStringPtr inp.specialist,
               created_at := normalizeCreatedAt env inp.createdAt },
        by rw [heq]; rfl, rfl⟩
  · intro c
    cases c with
    | none => exact Or.inl rfl
    | some s =>
      by_cases hs : s = ""
      · refine Or.inl ?_
        rw [hs]
        rfl
      · cases hp : parseRFC3339 s with
        | none =>
          refine Or.inl ?_
          simp only [normalizeCreatedAt, if_neg hs, hp]
        | some t =>
          refine Or.inr ⟨s, t, rfl, hs, hp, ?_⟩
          simp only [normalizeCreatedAt, if_neg hs, hp]
  · exact ⟨{ plainCol "created_at" SqlType.timestamptz with
               notNull := true, defaultNow := true },
      by simp [checklistsTable], rfl, rfl, rfl⟩

theorem claim9_createdAt_total_witness :
    decodeChecklist garbageCreatedAtBody = Except.ok garbageCreatedAtInput ∧
    (checklistHandler wEnv noFault "POST" garbageCreatedAtBody emptyDB).2 =
      Response.created 1 ∧
    (∃ prow,
      (checklistHandler wEnv noFault "POST" garbageCreatedAtBody emptyDB).1.checklists =
        emptyDB.checklists ++ [prow] ∧
      prow.created_at = normalizeCreatedAt wEnv garbageCreatedAtInput.createdAt) :=
  ⟨rfl, rfl,
    (claim9_createdAt_total wEnv noFault "POST" garbageCreatedAtBody emptyDB
      garbageCreatedAtInput 1 rfl rfl).1⟩

/-- Claim C10: for every accepted submission, the answer fields key, label,
value, and comment are persisted exactly as received, with no trimming and
no empty-string-to-null normalization: row number n is exactly the n-th
submitted answer with its generated identifier, key_name equal to the key
(even when empty), label wrapped as non-null text, and value and comment
passed through. -/
theorem claim10_answers_exact (env : Env) (fault : Fault) (method : String) (body : JVal)
    (st : DBState) (inp : Checklist) (cid : Nat)
    (hdec : decodeChecklist body = Except.ok inp)
    (hresp : (checklistHandler env fault method body st).2 = Response.created cid) :
    ∃ rows, (checklistHandler env fault method body st).1.answers = st.answers ++ rows ∧
      rows.length = inp.answers.length ∧
      ∀ n (hn : n < rows.length) (hn2 : n < inp.answers.length),
        rows.get ⟨n, hn⟩ =
          { id := st.nextAnswerId + n, checklist_id := cid,
            key_name := (inp.answers.get ⟨n, hn2⟩).key,
            label := some ((inp.answers.get ⟨n, hn2⟩).label),
            value := (inp.answers.get ⟨n, hn2⟩).value,
            comment := (inp.answers.get ⟨n, hn2⟩).comment } := by
  rcases checklistHandler_cases env fault method body st with ⟨r, heq, hnc⟩ |
    ⟨inp2, date, hdec2, -, -, -, -, -, -, -, -, heq⟩
  · rw [heq] at hresp
    exact absurd hresp (hnc cid)
  · rw [hdec] at hdec2
    cases Except.ok.inj hdec2
    rw [heq] at hresp
    cases Response.created.inj hresp
    refine ⟨buildRows st.nextChecklistId st.nextAnswerId inp.answers,
      by rw [heq]; rfl, buildRows_length inp.answers st.nextAnswerId, ?_⟩
    intro n hn hn2
    rw [buildRows_get inp.answers st.nextAnswerId n hn hn2]
    rfl

theorem claim10_answers_exact_witness :
    decodeChecklist emptyKeyBody = Except.ok emptyKeyInput ∧
    (checklistHandler wEnv noFault "POST" emptyKeyBody emptyDB).2 = Response.created 1 ∧
    ((checklistHandler wEnv noFault "POST" emptyKeyBody emptyDB).1.answers.map
      AnswerRow.key_name) = [""] ∧
    ((checklistHandler wEnv noFault "POST" emptyKeyBody emptyDB).1.answers.map
      AnswerRow.value) = [some "  yes  "] ∧
    (∃ rows, (checklistHandler wEnv noFault "POST" emptyKeyBody emptyDB).1.answers =
        emptyDB.answers ++ rows ∧
      rows.length = emptyKeyInput.answers.length ∧
      ∀ n (hn : n < rows.length) (hn2 : n < emptyKeyInput.answers.length),
        rows.get ⟨n, hn⟩ =
          { id := emptyDB.nextAnswerId + n, checklist_id := 1,
            key_name := (emptyKeyInput.answers.get ⟨n, hn2⟩).key,
            label := some ((emptyKeyInput.answers.get ⟨n, hn2⟩).label),
            value := (emptyKeyInput.answers.get ⟨n, hn2⟩).value,
            comment := (emptyKeyInput.answers.get ⟨n, hn2⟩).comment }) :=
  ⟨rfl, rfl, rfl, rfl,
    claim10_answers_exact wEnv noFault "POST" emptyKeyBody emptyDB emptyKeyInput 1 rfl rfl⟩
